import Mathlib

/-!
Verification development for the RIT charting repository.

The embedded code is `src/charting_flask/app_v2.py` (the variant that has the
candle aggregator `build_candles_from_history`, the history normalizer
`fetch_history_rows`, the news reader `get_news_headlines`, the polling
orchestrator `update_state`, and the HTTP parameter handling in `chart_png`).
The sibling file `src/charting_flask/app.py` contains the same case-poll /
finished logic (its lines 124-181); where the two differ materially this is
noted at the relevant definition.

Numbers: Python floats (prices, times) are modelled as rationals; Python ints
(ticks, buckets) as Lean Int. Python floor division `//` is `Int.fdiv`.
Fallible network calls are modelled as `Option`-valued inputs to the state
transition (`none` = the call raised an exception).
-/

namespace Charting

/-! ### Small helpers: ASCII lowercasing, association lists -/

/-- Lowercasing of one character, as Python `str.lower` acts on ASCII
(the statuses compared in the source are ASCII strings). -/
def lowerChar (c : Char) : Char :=
  if 65 ≤ c.toNat ∧ c.toNat ≤ 90 then Char.ofNat (c.toNat + 32) else c

/-- Models Python `s.lower()` for ASCII strings. -/
def strLower (s : String) : String := String.mk (s.data.map lowerChar)

/-- Association-list lookup, modelling Python dict access `d[k]` / `k in d`. -/
def alistLookup {α β : Type} [DecidableEq α] (l : List (α × β)) (k : α) : Option β :=
  match l with
  | [] => none
  | (k', v) :: rest => if k = k' then some v else alistLookup rest k

/-- Association-list update, modelling Python dict assignment `d[k] = v`. -/
def alistInsert {α β : Type} [DecidableEq α] (l : List (α × β)) (k : α) (v : β) :
    List (α × β) :=
  match l with
  | [] => [(k, v)]
  | (k', v') :: rest =>
      if k = k' then (k, v) :: rest else (k', v') :: alistInsert rest k v

/-! ### Normalized history rows

`fetch_history_rows` (app_v2.py lines 130-167) emits exactly two row shapes:
a full OHLC record `{"tick", "open", "high", "low", "close"}` or a scalar
price record `{"tick", "price"}`. -/

/-- A normalized history row, as produced by the loop in `fetch_history_rows`
(app_v2.py lines 145-164): either an OHLC record or a scalar price record. -/
inductive HistRow : Type
  | ohlc (tick : Int) (o h l c : ℚ)
  | scalar (tick : Int) (price : ℚ)
deriving DecidableEq

/-- The `tick` field of a normalized row. -/
def HistRow.tick : HistRow → Int
  | .ohlc t _ _ _ _ => t
  | .scalar t _ => t

/-- Models `row_close(r) = r.get("close", r.get("price", None))` from
`build_candles_from_history` (app_v2.py lines 178-179).  On the two shapes
emitted by `fetch_history_rows` this is never `None`, so the model is total. -/
def HistRow.price_close : HistRow → ℚ
  | .ohlc _ _ _ _ c => c
  | .scalar _ p => p

/-- Models `r.get("open", price_close)` (app_v2.py line 192). -/
def HistRow.openv : HistRow → ℚ
  | .ohlc _ o _ _ _ => o
  | .scalar _ p => p

/-- Models `r.get("high", price_close)` (app_v2.py lines 193 and 208). -/
def HistRow.highv : HistRow → ℚ
  | .ohlc _ _ h _ _ => h
  | .scalar _ p => p

/-- Models `r.get("low", price_close)` (app_v2.py lines 194 and 209). -/
def HistRow.lowv : HistRow → ℚ
  | .ohlc _ _ _ l _ => l
  | .scalar _ p => p

/-- Models `r.get("close", price_close)` (app_v2.py lines 195 and 210). -/
def HistRow.closev : HistRow → ℚ
  | .ohlc _ _ _ _ c => c
  | .scalar _ p => p

/-! ### The candle aggregator: `build_candles_from_history`
(app_v2.py lines 169-215) -/

/-- A candle dict `{bucket, start_tick, open, high, low, close}` as built by
`build_candles_from_history`.  The Python key `open` is the field `opn`
(`open` is a Lean keyword). -/
structure Candle : Type where
  bucket : Int
  start_tick : Int
  opn : ℚ
  high : ℚ
  low : ℚ
  close : ℚ
deriving DecidableEq

/-- The bucket of a row: `bucket = tick // candle_ticks` (app_v2.py line 187).
Python `//` on ints is floor division, i.e. `Int.fdiv`.  (Python raises
`ZeroDivisionError` when `candle_ticks = 0`; all callers pass
`candle_ticks >= 1`, see `chart_png_candle_ticks`.) -/
def bucketOf (candle_ticks : Int) (r : HistRow) : Int :=
  Int.fdiv r.tick candle_ticks

/-- A freshly started candle (app_v2.py lines 190-205): on a new bucket,
`open/high/low/close` come from the row fields, each defaulting to the row
price, and `start_tick = bucket * candle_ticks`. -/
def newCandle (candle_ticks : Int) (r : HistRow) : Candle :=
  { bucket := bucketOf candle_ticks r
    start_tick := bucketOf candle_ticks r * candle_ticks
    opn := r.openv
    high := r.highv
    low := r.lowv
    close := r.closev }

/-- The in-place update of the current candle (app_v2.py lines 206-213):
`high = max(high, row high-or-price)`, `low = min(low, row low-or-price)`,
`close = row close-or-price`; `bucket`, `start_tick` and `open` unchanged. -/
def updateCandle (c : Candle) (r : HistRow) : Candle :=
  { c with
    high := max c.high r.highv
    low := min c.low r.lowv
    close := r.closev }

/-- The loop of `build_candles_from_history` after the first candle exists:
`cur` is the current (last, still mutable) candle, and the returned list is
the remaining tail of the candle list (each candle is emitted once its bucket
is superseded; `cur` itself is emitted at the end of the input).
The Python `if price_close is None: continue` branch (line 184) is
unreachable on the two row shapes emitted by `fetch_history_rows`, so it has
no counterpart here. -/
def buildAux (candle_ticks : Int) (cur : Candle) : List HistRow → List Candle
  | [] => [cur]
  | r :: rs =>
      if bucketOf candle_ticks r = cur.bucket then
        buildAux candle_ticks (updateCandle cur r) rs
      else
        cur :: buildAux candle_ticks (newCandle candle_ticks r) rs

/-- Models `build_candles_from_history(rows, candle_ticks)`
(app_v2.py lines 169-215). -/
def build_candles_from_history (rows : List HistRow) (candle_ticks : Int) :
    List Candle :=
  match rows with
  | [] => []
  | r :: rs => buildAux candle_ticks (newCandle candle_ticks r) rs

/-! ### Raw JSON values and Python numeric coercion

`fetch_history_rows` (app_v2.py lines 130-167) receives arbitrary JSON rows
and coerces candidate fields with Python `int(...)` / `float(...)`, skipping
the row when the coercion raises. -/

/-- A raw JSON value stored under a key of a history row: `vnull` is JSON
null / Python `None`, `vint` an integer, `vfloat` a float (as a rational),
`vstr` a string, `vother` anything else (list, object, ...). -/
inductive RawVal : Type
  | vnull
  | vint (n : Int)
  | vfloat (q : ℚ)
  | vstr (s : String)
  | vother
deriving DecidableEq

/-- True on the ASCII whitespace stripped by Python `str.strip()` that can
occur around numeric literals. -/
def isSpaceChar (c : Char) : Bool :=
  c == ' ' || c == '\t' || c == '\n' || c == '\r'

/-- Strip leading and trailing whitespace from a character list. -/
def trimChars (l : List Char) : List Char :=
  ((l.dropWhile isSpaceChar).reverse.dropWhile isSpaceChar).reverse

/-- Models Python `s.strip()`. -/
def pyStrip (s : String) : String := String.mk (trimChars s.data)

/-- Numeric value of a nonempty digit string. -/
def digitsVal (l : List Char) : Nat :=
  l.foldl (fun a c => a * 10 + (c.toNat - 48)) 0

/-- Parse an unsigned decimal integer: nonempty, digits only. -/
def parseNatChars (l : List Char) : Option Nat :=
  if l ≠ [] ∧ l.all Char.isDigit then some (digitsVal l) else none

/-- Models Python `int(s)` on a string: optional surrounding whitespace, an
optional sign, then decimal digits.  Rejects anything else (in particular a
string with a decimal point: Python `int("3.5")` raises). -/
def pyIntOfString (s : String) : Option Int :=
  match trimChars s.data with
  | '-' :: rest => (parseNatChars rest).map (fun n => -(n : Int))
  | '+' :: rest => (parseNatChars rest).map (fun n => (n : Int))
  | l => (parseNatChars l).map (fun n => (n : Int))

/-- Parse an unsigned decimal numeral with an optional fractional part
(digit strings around at most one point, not both empty), as accepted by
Python `float(s)`; exponent forms are not modelled (they do not occur in
this data). The value is assembled with `mkRat` so that it evaluates inside
the kernel. -/
def parseFracChars (l : List Char) : Option ℚ :=
  match l.splitOn '.' with
  | [a] => (parseNatChars a).map (fun n => (n : ℚ))
  | [a, b] =>
      if (a ++ b) ≠ [] ∧ (a ++ b).all Char.isDigit then
        some (mkRat (digitsVal (a ++ b)) (10 ^ b.length))
      else none
  | _ => none

/-- Models Python `float(s)` on a string (decimal forms). -/
def pyFloatOfString (s : String) : Option ℚ :=
  match trimChars s.data with
  | '-' :: rest => (parseFracChars rest).map (fun q => -q)
  | '+' :: rest => parseFracChars rest
  | l => parseFracChars l

/-- Truncation toward zero, as Python `int(float)`. -/
def ratTrunc (q : ℚ) : Int := if 0 ≤ q then ⌊q⌋ else ⌈q⌉

/-- Models Python `int(v)` on a raw JSON value: ints pass through, floats
truncate, integer-format strings parse; `None` and other shapes raise. -/
def pyIntOf : RawVal → Option Int
  | .vnull => none
  | .vint n => some n
  | .vfloat q => some (ratTrunc q)
  | .vstr s => pyIntOfString s
  | .vother => none

/-- Models Python `float(v)` on a raw JSON value. -/
def pyFloatOf : RawVal → Option ℚ
  | .vnull => none
  | .vint n => some (n : ℚ)
  | .vfloat q => some q
  | .vstr s => pyFloatOfString s
  | .vother => none

/-! ### History row normalization: `fetch_history_rows`
(app_v2.py lines 130-167) -/

/-- A raw history row (a JSON object).  Each field is a key of the dict:
`none` means the key is absent, `some .vnull` that it is present with value
null.  Field `opn` is the Python key `open` (a Lean keyword). -/
structure RawRow : Type where
  tick : Option RawVal := none
  timestamp : Option RawVal := none
  time : Option RawVal := none
  opn : Option RawVal := none
  high : Option RawVal := none
  low : Option RawVal := none
  close : Option RawVal := none
  last : Option RawVal := none
  price : Option RawVal := none
deriving DecidableEq

/-- Models `row.get(key, default)`: the stored value if the key is present
(even when it is null), otherwise the default. -/
def pyGet (field : Option RawVal) (dflt : RawVal) : RawVal := field.getD dflt

/-- The position candidate probed by app_v2.py lines 135-138:
`t = row.get("tick", None); if t is None: t = row.get("timestamp",
row.get("time", None))`. -/
def rowPosVal (row : RawRow) : RawVal :=
  let t := pyGet row.tick .vnull
  if t = .vnull then pyGet row.timestamp (pyGet row.time .vnull) else t

/-- Models `all(k in row for k in ("open", "high", "low", "close"))`
(app_v2.py line 145): a presence check, satisfied even by null values. -/
def hasOHLC (row : RawRow) : Bool :=
  row.opn.isSome && row.high.isSome && row.low.isSome && row.close.isSome

/-- The price candidate of the scalar branch (app_v2.py line 158):
`p = row.get("close", row.get("last", row.get("price", None)))`. -/
def rowPriceVal (row : RawRow) : RawVal :=
  pyGet row.close (pyGet row.last (pyGet row.price .vnull))

/-- One iteration of the normalization loop of `fetch_history_rows`
(app_v2.py lines 131-164): `none` input models a non-dict row (skipped), and
a `none` result models `continue` (row skipped).  The position candidate must
coerce with `int`; then either all four OHLC keys are present and must all
coerce with `float`, or the scalar price candidate must be non-null and
coerce with `float`. -/
def parseHistRow (item : Option RawRow) : Option HistRow :=
  match item with
  | none => none
  | some row =>
      match pyIntOf (rowPosVal row) with
      | none => none
      | some t =>
          if hasOHLC row then
            match pyFloatOf (pyGet row.opn .vnull), pyFloatOf (pyGet row.high .vnull),
                  pyFloatOf (pyGet row.low .vnull), pyFloatOf (pyGet row.close .vnull) with
            | some o, some h, some l, some c => some (.ohlc t o h l c)
            | _, _, _, _ => none
          else
            let p := rowPriceVal row
            if p = .vnull then none
            else (pyFloatOf p).map (fun q => .scalar t q)

/-- The normalization loop of `fetch_history_rows` (app_v2.py lines 130-164):
each raw item is parsed independently; a skipped row never aborts the batch. -/
def normalize_history_rows : List (Option RawRow) → List HistRow
  | [] => []
  | item :: rest =>
      match parseHistRow item with
      | none => normalize_history_rows rest
      | some r => r :: normalize_history_rows rest

/-- Models the pure part of `fetch_history_rows` (app_v2.py lines 130-167):
normalize each row, then `rows.sort(key=lambda x: x["tick"])` (a stable sort,
like Python sort). -/
def fetch_history_rows (data : List (Option RawRow)) : List HistRow :=
  (normalize_history_rows data).mergeSort (fun a b => decide (a.tick ≤ b.tick))

/-! ### News: `get_news_headlines` (app_v2.py lines 55-76) -/

/-- An item of the news list: a JSON object whose `headline` key holds
`some s` (absent / null / falsy normalizes through `get`/`or` below),
or a non-object item. -/
inductive NewsItem : Type
  | obj (headline : Option String)
  | nonObj
deriving DecidableEq

/-- The JSON body returned by the news endpoint: a list, a single object, or
any other value (stringified by the source). -/
inductive NewsData : Type
  | arr (items : List NewsItem)
  | obj (headline : Option String)
  | other (text : String)
deriving DecidableEq

/-- Models `item.get("headline", "") or ""`: the headline string if present
and non-null, else the empty string. -/
def headlineOf (h : Option String) : String := h.getD ""

/-- Models `get_news_headlines()` (app_v2.py lines 55-76).  The argument is
the outcome of the guarded fetch: `none` when the request or JSON decoding
raised (the function then returns `(None, None)`); otherwise the decoded
body.  On success both components are strings (possibly empty). -/
def get_news_headlines (fetch : Option NewsData) : Option String × Option String :=
  match fetch with
  | none => (none, none)
  | some data =>
      match data with
      | .arr items =>
          let cur := match items[0]? with
            | some (NewsItem.obj h) => headlineOf h
            | _ => ""
          let prev := match items[1]? with
            | some (NewsItem.obj h) => headlineOf h
            | _ => ""
          (some cur, some prev)
      | .obj h => (some (headlineOf h), some "")
      | .other text => (some text, some "")

/-! ### Configuration constants (app_v2.py lines 20-28) -/

/-- `TICK_LIMIT = 1800` (app_v2.py line 20). -/
def TICK_LIMIT : Int := 1800

/-- `CASE_POLL_INTERVAL = 0.5` seconds (app_v2.py line 21). -/
def CASE_POLL_INTERVAL : ℚ := mkRat 1 2

/-- `NEWS_POLL_INTERVAL = 1.0` seconds (app_v2.py line 22). -/
def NEWS_POLL_INTERVAL : ℚ := 1

/-- `HIST_POLL_INTERVAL = 0.5` seconds (app_v2.py line 25). -/
def HIST_POLL_INTERVAL : ℚ := mkRat 1 2

/-- `DEFAULT_CANDLE_TICKS = 10` (app_v2.py line 28). -/
def DEFAULT_CANDLE_TICKS : Int := 10

/-! ### The polling state machine: `update_state`
(app_v2.py lines 217-282) -/

/-- A history cache entry
`{"candles": ..., "last_price": ..., "last_tick_seen": ...}`
(app_v2.py lines 263 and 274-278). -/
structure HistEntry : Type where
  candles : List Candle
  last_price : ℚ
  last_tick_seen : Int
deriving DecidableEq

/-- The fresh entry inserted for an unseen key (app_v2.py line 263). -/
def emptyHistEntry : HistEntry :=
  { candles := [], last_price := 0, last_tick_seen := -1 }

/-- The module-level mutable state of app_v2.py (lines 217-229). -/
structure AppState : Type where
  current_news : String
  previous_news : String
  last_news_poll : ℚ
  last_case_poll : ℚ
  last_hist_poll : ℚ
  tick : Int
  status : String
  finished : Bool
  history_cache : List ((String × Int) × HistEntry)
deriving DecidableEq

/-- The initial values of the module globals (app_v2.py lines 218-229). -/
def initial_state : AppState :=
  { current_news := ""
    previous_news := ""
    last_news_poll := 0
    last_case_poll := 0
    last_hist_poll := 0
    tick := 0
    status := "unknown"
    finished := false
    history_cache := [] }

/-- One invocation of `update_state` interacts with the outside world through
`time.time()` and three fallible feeds; this record carries their outcomes.
`none` models the call raising an exception (for news, the fetch inside
`get_news_headlines`); for history, `some data` is the decoded JSON row list
handed to the normalization loop. -/
structure UpdateInput : Type where
  now : ℚ
  caseRes : Option (Int × String)
  newsData : Option NewsData
  histData : Option (List (Option RawRow))
deriving DecidableEq

/-- Which feeds one `update_state` call actually polled (ghost
instrumentation: `didCasePoll` is true exactly when the source executes the
`try: get_tick_status()` block, and likewise for the other feeds). -/
structure UpdateFlags : Type where
  didCasePoll : Bool
  didNewsPoll : Bool
  didHistPoll : Bool
deriving DecidableEq

/-- The termination test of app_v2.py line 248:
`tick >= TICK_LIMIT or status.lower() not in ("active", "running")`. -/
def finishCheck (tick : Int) (status : String) : Bool :=
  (TICK_LIMIT ≤ tick) || !(strLower status == "active" || strLower status == "running")

/-- The tick retained after the case-poll attempt: the fetched value on
success, the previous one when the call raised (app_v2.py lines 240-243). -/
def caseTickAfter (inp : UpdateInput) (s : AppState) : Int :=
  match inp.caseRes with
  | some (t, _) => t
  | none => s.tick

/-- The status retained after the case-poll attempt (app_v2.py lines
240-243). -/
def caseStatusAfter (inp : UpdateInput) (s : AppState) : String :=
  match inp.caseRes with
  | some (_, st) => st
  | none => s.status

/-- `last_price` for a fresh history entry (app_v2.py lines 269-272):
`float(last.get("close", last.get("price", 0.0)))` of the last row, `0.0`
when there are no rows. -/
def lastPriceOf (rows : List HistRow) : ℚ :=
  match rows.getLast? with
  | none => 0
  | some r => r.price_close

/-- `last_tick_seen` for a fresh history entry (app_v2.py line 277):
`rows[-1]["tick"] if rows else -1`. -/
def lastTickSeenOf (rows : List HistRow) : Int :=
  match rows.getLast? with
  | none => -1
  | some r => r.tick

/-- Models `update_state(ticker, candle_ticks)` (app_v2.py lines 231-282) as
a function of the poll outcomes.  Returns the new state together with the
poll flags.  Block by block:
the case block (lines 239-249) runs whenever its interval elapsed — it is
not gated on `finished` — keeps the old `tick`/`status` when the poll raised,
and then sets `finished` by `finishCheck` on the retained values;
the news block (lines 252-258) runs only when not finished (as just
updated) and its interval elapsed;
the history block (lines 261-282) first inserts an empty entry for an unseen
key, then refetches when its interval elapsed and not
(`finished` and the cached candle list is non-empty); on success the entry is
replaced wholesale, on an exception it is left as is; `last_hist_poll` is
set either way. -/
def update_state (ticker : String) (candle_ticks : Int) (inp : UpdateInput)
    (s : AppState) : AppState × UpdateFlags :=
  let now := inp.now
  -- Poll /case (app_v2.py lines 239-249)
  let caseDue : Bool := decide (CASE_POLL_INTERVAL ≤ now - s.last_case_poll)
  let tick1 := if caseDue then caseTickAfter inp s else s.tick
  let status1 := if caseDue then caseStatusAfter inp s else s.status
  let lastCase1 :=
    if caseDue && inp.caseRes.isSome then now else s.last_case_poll
  let finished1 :=
    if caseDue then s.finished || finishCheck tick1 status1 else s.finished
  -- Poll /news (app_v2.py lines 252-258)
  let newsDue : Bool := decide (NEWS_POLL_INTERVAL ≤ now - s.last_news_poll)
  let doNews := !finished1 && newsDue
  let news := get_news_headlines inp.newsData
  let current1 :=
    if doNews then (news.1).getD s.current_news else s.current_news
  let previous1 :=
    if doNews then (news.2).getD s.previous_news else s.previous_news
  let lastNews1 := if doNews then now else s.last_news_poll
  -- Poll /securities/history, cached (app_v2.py lines 261-282)
  let key := (ticker, candle_ticks)
  let cache0 :=
    match alistLookup s.history_cache key with
    | some _ => s.history_cache
    | none => alistInsert s.history_cache key emptyHistEntry
  let entry := (alistLookup cache0 key).getD emptyHistEntry
  let histDue : Bool := decide (HIST_POLL_INTERVAL ≤ now - s.last_hist_poll)
  let doHist := histDue && !(finished1 && !entry.candles.isEmpty)
  let cache1 :=
    if doHist then
      match inp.histData with
      | none => cache0
      | some data =>
          let rows := fetch_history_rows data
          alistInsert cache0 key
            { candles := build_candles_from_history rows candle_ticks
              last_price := lastPriceOf rows
              last_tick_seen := lastTickSeenOf rows }
    else cache0
  let lastHist1 := if doHist then now else s.last_hist_poll
  (⟨current1, previous1, lastNews1, lastCase1, lastHist1,
    tick1, status1, finished1, cache1⟩,
   ⟨caseDue, doNews, doHist⟩)

/-! ### HTTP parameter handling: `chart_png` (app_v2.py lines 380-398) -/

/-- Models the `candle` query-parameter handling of `chart_png`
(app_v2.py lines 383 and 392-396).  The argument is the raw query value
(`none` when the parameter is missing; `request.args.get("candle", "")`
then yields the empty string).  The source runs
`candle_ticks = int(candle_ticks) if candle_ticks else DEFAULT_CANDLE_TICKS`
followed by `candle_ticks = max(1, candle_ticks)` inside a `try`, and falls
back to `DEFAULT_CANDLE_TICKS` when `int(...)` raises. -/
def chart_png_candle_ticks (rawCandle : Option String) : Int :=
  let cstr := pyStrip (rawCandle.getD "")
  if cstr = "" then max 1 DEFAULT_CANDLE_TICKS
  else
    match pyIntOfString cstr with
    | some n => max 1 n
    | none => DEFAULT_CANDLE_TICKS

/-! ### Structural lemmas about the aggregator -/

/-- The aggregator loop always returns at least the current candle. -/
theorem buildAux_ne_nil (g : Int) (cur : Candle) (rs : List HistRow) :
    buildAux g cur rs ≠ [] := by
  induction rs generalizing cur with
  | nil => simp [buildAux]
  | cons r rs ih =>
      by_cases h : bucketOf g r = cur.bucket <;> simp [buildAux, h, ih]

/-- Appending one more row to the input either mutates the last candle in
place (same bucket) or appends a fresh candle (new bucket). -/
theorem buildAux_append_one (g : Int) (cur : Candle) (rs : List HistRow)
    (r : HistRow) :
    buildAux g cur (rs ++ [r]) =
      match (buildAux g cur rs).getLast? with
      | none => [newCandle g r]
      | some lastC =>
          if bucketOf g r = lastC.bucket then
            (buildAux g cur rs).dropLast ++ [updateCandle lastC r]
          else
            buildAux g cur rs ++ [newCandle g r] := by
  induction rs generalizing cur with
  | nil =>
      by_cases h : bucketOf g r = cur.bucket <;>
        simp [buildAux, h]
  | cons a rs ih =>
      by_cases ha : bucketOf g a = cur.bucket
      · have : (a :: rs) ++ [r] = a :: (rs ++ [r]) := rfl
        rw [this]
        simp only [buildAux, ha, if_pos rfl]
        rw [ih]
        simp [buildAux, ha]
      · have hcons : (a :: rs) ++ [r] = a :: (rs ++ [r]) := rfl
        rw [hcons]
        simp only [buildAux, ha, if_neg, ite_false]
        rw [ih]
        obtain ⟨t, ts, hts⟩ :=
          List.exists_cons_of_ne_nil (buildAux_ne_nil g (newCandle g a) rs)
        rw [hts]
        cases hlast : (t :: ts).getLast? with
        | none => simp at hlast
        | some lastC =>
            by_cases hb : bucketOf g r = lastC.bucket <;>
              simp [buildAux, ha, hlast, hb, List.getLast?_cons_cons]

/-- The candle whose bucket the loop compares against is always the last
candle of the output so far. -/
theorem build_append_one (g : Int) (rows : List HistRow) (r : HistRow) :
    build_candles_from_history (rows ++ [r]) g =
      match (build_candles_from_history rows g).getLast? with
      | none => [newCandle g r]
      | some lastC =>
          if bucketOf g r = lastC.bucket then
            (build_candles_from_history rows g).dropLast ++ [updateCandle lastC r]
          else
            build_candles_from_history rows g ++ [newCandle g r] := by
  cases rows with
  | nil => simp [build_candles_from_history, buildAux]
  | cons a rs =>
      have : (a :: rs) ++ [r] = a :: (rs ++ [r]) := rfl
      rw [build_candles_from_history, this]
      exact buildAux_append_one g (newCandle g a) rs r

/-! ### Claim C1: the ingest step of the aggregator -/

/-- C1.  For every sequence of rows ingested at granularity g >= 1, the
aggregator computes bucket = floor(position / g); when the series is empty or
the bucket differs from the last candle, it appends a new candle whose
open/high/low/close are the row fields, each defaulting to the row price
(so for a scalar row all four equal the price, and for an OHLC row
open = row.open); otherwise only the last candle changes:
high = max(old high, row high-or-price), low = min(old low, row low-or-price),
close = row close-or-price, with open, bucket and start_tick unchanged. -/
theorem aggregator_ingest_step (g : Int) (hg : 1 ≤ g) (rows : List HistRow)
    (r : HistRow) :
    (build_candles_from_history (rows ++ [r]) g =
      match (build_candles_from_history rows g).getLast? with
      | none => [newCandle g r]
      | some lastC =>
          if bucketOf g r = lastC.bucket then
            (build_candles_from_history rows g).dropLast ++ [updateCandle lastC r]
          else
            build_candles_from_history rows g ++ [newCandle g r])
    ∧ bucketOf g r = Int.fdiv r.tick g
    ∧ (newCandle g r).opn = r.openv
    ∧ (newCandle g r).high = r.highv
    ∧ (newCandle g r).low = r.lowv
    ∧ (newCandle g r).close = r.closev
    ∧ (∀ c : Candle,
        (updateCandle c r).opn = c.opn
        ∧ (updateCandle c r).bucket = c.bucket
        ∧ (updateCandle c r).start_tick = c.start_tick
        ∧ (updateCandle c r).high = max c.high r.highv
        ∧ (updateCandle c r).low = min c.low r.lowv
        ∧ (updateCandle c r).close = r.closev)
    ∧ (∀ t : Int, ∀ p : ℚ,
        (newCandle g (HistRow.scalar t p)).opn = p
        ∧ (newCandle g (HistRow.scalar t p)).high = p
        ∧ (newCandle g (HistRow.scalar t p)).low = p
        ∧ (newCandle g (HistRow.scalar t p)).close = p) :=
  ⟨build_append_one g rows r, rfl, rfl, rfl, rfl, rfl,
   fun _ => ⟨rfl, rfl, rfl, rfl, rfl, rfl⟩,
   fun _ _ => ⟨rfl, rfl, rfl, rfl⟩⟩

/-- Witness for C1: concrete instance with granularity 10; appending a row in
the same bucket mutates only the last candle. -/
theorem aggregator_ingest_step_witness :
    (1 : Int) ≤ 10
    ∧ build_candles_from_history ([HistRow.scalar 0 10] ++ [HistRow.scalar 3 12]) 10
        = [⟨0, 0, 10, 12, 10, 12⟩] := by
  refine ⟨by decide, ?_⟩
  rw [(aggregator_ingest_step 10 (by decide) [HistRow.scalar 0 10]
        (HistRow.scalar 3 12)).1]
  decide

/-! ### Claim C7: the worked aggregation example -/

/-- C7.  Scalar samples at positions [0,3,9,11,21] with prices
[10,12,9,15,15] at granularity 10 produce exactly three candles with
start ticks 0, 10, 20 and the stated OHLC values. -/
theorem aggregator_example_candles :
    build_candles_from_history
      [HistRow.scalar 0 10, HistRow.scalar 3 12, HistRow.scalar 9 9,
       HistRow.scalar 11 15, HistRow.scalar 21 15] 10 =
    [{ bucket := 0, start_tick := 0, opn := 10, high := 12, low := 9, close := 9 },
     { bucket := 1, start_tick := 10, opn := 15, high := 15, low := 15, close := 15 },
     { bucket := 2, start_tick := 20, opn := 15, high := 15, low := 15, close := 15 }] := by
  decide

/-! ### Claim C2: series length and candle invariants -/

/-- A scalar-price sample `(position, price)` as a normalized row. -/
def scalarRow (p : Int × ℚ) : HistRow := HistRow.scalar p.1 p.2

/-- The candle invariant of the spec data model:
low <= open <= high and low <= close <= high. -/
def candleOK (c : Candle) : Prop :=
  c.low ≤ c.opn ∧ c.opn ≤ c.high ∧ c.low ≤ c.close ∧ c.close ≤ c.high

instance (c : Candle) : Decidable (candleOK c) := by
  unfold candleOK; infer_instance

/-- Updating the current candle with a scalar row preserves the candle
invariant. -/
theorem candleOK_update_scalar {c : Candle} (hc : candleOK c) (t : Int) (p : ℚ) :
    candleOK (updateCandle c (HistRow.scalar t p)) := by
  obtain ⟨h1, h2, _, _⟩ := hc
  refine ⟨?_, ?_, ?_, ?_⟩
  · exact le_trans (min_le_left c.low p) h1
  · exact le_trans h2 (le_max_left c.high p)
  · exact min_le_right c.low p
  · exact le_max_right c.high p

/-- A candle freshly started from a scalar row satisfies the invariant. -/
theorem candleOK_new_scalar (g : Int) (t : Int) (p : ℚ) :
    candleOK (newCandle g (HistRow.scalar t p)) :=
  ⟨le_refl _, le_refl _, le_refl _, le_refl _⟩

/-- Every candle produced by the loop from scalar rows satisfies the
invariant, provided the incoming current candle does. -/
theorem buildAux_candleOK (g : Int) (samples : List (Int × ℚ)) :
    ∀ cur : Candle, candleOK cur →
      ∀ c ∈ buildAux g cur (samples.map scalarRow), candleOK c := by
  induction samples with
  | nil =>
      intro cur hcur c hc
      have he : buildAux g cur (List.map scalarRow []) = [cur] := rfl
      rw [he, List.mem_singleton] at hc
      exact hc ▸ hcur
  | cons a ss ih =>
      intro cur hcur c hc
      simp only [List.map_cons, buildAux] at hc
      by_cases h : bucketOf g (scalarRow a) = cur.bucket
      · rw [if_pos h] at hc
        exact ih _ (candleOK_update_scalar hcur a.1 a.2) c hc
      · rw [if_neg h] at hc
        rcases List.mem_cons.mp hc with rfl | hmem
        · exact hcur
        · exact ih _ (candleOK_new_scalar g a.1 a.2) c hmem

/-- With a nondecreasing bucket list (head = current bucket), the loop emits
exactly one candle per distinct bucket. -/
theorem buildAux_length_dedup (g : Int) (rs : List HistRow) :
    ∀ cur : Candle,
      (cur.bucket :: rs.map (bucketOf g)).Pairwise (· ≤ ·) →
      (buildAux g cur rs).length = (cur.bucket :: rs.map (bucketOf g)).dedup.length := by
  induction rs with
  | nil =>
      intro cur _
      simp [buildAux]
  | cons r rs ih =>
      intro cur hp
      simp only [List.map_cons] at hp ⊢
      have hp1 : (bucketOf g r :: rs.map (bucketOf g)).Pairwise (· ≤ ·) :=
        hp.of_cons
      have hcb : cur.bucket ≤ bucketOf g r := (List.pairwise_cons.mp hp).1 _ (by simp)
      by_cases h : bucketOf g r = cur.bucket
      · have hmem : cur.bucket ∈ bucketOf g r :: rs.map (bucketOf g) := by
          simp [h]
        rw [List.dedup_cons_of_mem hmem, h]
        have hub : (updateCandle cur r).bucket = cur.bucket := rfl
        have hup : ((updateCandle cur r).bucket :: rs.map (bucketOf g)).Pairwise (· ≤ ·) := by
          rw [hub, ← h]; exact hp1
        have hstep : buildAux g cur (r :: rs) = buildAux g (updateCandle cur r) rs := by
          simp only [buildAux, if_pos h]
        rw [hstep, ih (updateCandle cur r) hup, hub]
      · have hlt : cur.bucket < bucketOf g r := lt_of_le_of_ne hcb (Ne.symm h)
        have hnotmem : cur.bucket ∉ bucketOf g r :: rs.map (bucketOf g) := by
          intro hmem
          rcases List.mem_cons.mp hmem with he | hmem'
          · exact absurd he.symm h
          · have := (List.pairwise_cons.mp hp1).1 _ hmem'
            have hle := (List.pairwise_cons.mp hp).1 _ (List.mem_cons_of_mem _ hmem')
            omega
        rw [List.dedup_cons_of_not_mem hnotmem]
        have hnb : (newCandle g r).bucket = bucketOf g r := rfl
        have hnew : ((newCandle g r).bucket :: rs.map (bucketOf g)).Pairwise (· ≤ ·) := by
          rw [hnb]; exact hp1
        simp only [buildAux, if_neg h, List.length_cons, List.dedup_cons_of_not_mem]
        rw [ih (newCandle g r) hnew, hnb]

/-- Floor division by a positive granularity is monotone. -/
theorem fdiv_mono_of_pos (g : Int) (hg : 0 < g) {a b : Int} (hab : a ≤ b) :
    Int.fdiv a g ≤ Int.fdiv b g := by
  rw [Int.fdiv_eq_ediv _ hg.le, Int.fdiv_eq_ediv _ hg.le]
  exact Int.ediv_le_ediv hg hab

/-- C2.  For every strictly increasing sequence of sample positions with
scalar prices, the candle series has exactly one candle per distinct bucket
visited, and every candle satisfies low <= open <= high and
low <= close <= high. -/
theorem aggregator_series_invariants (g : Int) (hg : 1 ≤ g)
    (samples : List (Int × ℚ))
    (hpos : (samples.map Prod.fst).Pairwise (· < ·)) :
    (build_candles_from_history (samples.map scalarRow) g).length
        = ((samples.map scalarRow).map (bucketOf g)).dedup.length
    ∧ ∀ c ∈ build_candles_from_history (samples.map scalarRow) g, candleOK c := by
  have hbuckets : ((samples.map scalarRow).map (bucketOf g)).Pairwise (· ≤ ·) := by
    simp only [List.pairwise_map] at hpos ⊢
    exact hpos.imp (fun {a b} hab => fdiv_mono_of_pos g (by omega) hab.le)
  constructor
  · cases samples with
    | nil => simp [build_candles_from_history]
    | cons a ss =>
        simp only [List.map_cons] at hbuckets ⊢
        have hnb : (newCandle g (scalarRow a)).bucket = bucketOf g (scalarRow a) := rfl
        have hdef : build_candles_from_history (scalarRow a :: ss.map scalarRow) g
            = buildAux g (newCandle g (scalarRow a)) (ss.map scalarRow) := rfl
        rw [hdef,
          buildAux_length_dedup g (ss.map scalarRow) (newCandle g (scalarRow a))
            (by rw [hnb]; exact hbuckets)]
        rw [hnb]
  · cases samples with
    | nil => simp [build_candles_from_history]
    | cons a ss =>
        intro c hc
        simp only [List.map_cons] at hc
        have hdef : build_candles_from_history (scalarRow a :: ss.map scalarRow) g
            = buildAux g (newCandle g (scalarRow a)) (ss.map scalarRow) := rfl
        rw [hdef] at hc
        exact buildAux_candleOK g ss (newCandle g (scalarRow a))
          (candleOK_new_scalar g a.1 a.2) c hc

/-- Witness for C2: three samples hitting two distinct buckets. -/
theorem aggregator_series_invariants_witness :
    ((1 : Int) ≤ 10
      ∧ ([((0 : Int), (10 : ℚ)), (3, 12), (11, 15)].map Prod.fst).Pairwise (· < ·))
    ∧ (build_candles_from_history
        ([((0 : Int), (10 : ℚ)), (3, 12), (11, 15)].map scalarRow) 10).length = 2 := by
  refine ⟨⟨by decide, by decide⟩, ?_⟩
  exact (aggregator_series_invariants 10 (by decide) _ (by decide)).1.trans (by decide)

/-! ### Lifecycle lemmas -/

/-- How one `update_state` call determines `finished`: the case block alone
decides it (news and history polling never touch the flag), it is re-evaluated
only when the case-poll interval has elapsed, and then on the retained
tick/status values. -/
theorem update_state_finished_eq (tk : String) (ct : Int) (inp : UpdateInput)
    (s : AppState) :
    (update_state tk ct inp s).1.finished =
      if decide (CASE_POLL_INTERVAL ≤ inp.now - s.last_case_poll) then
        s.finished || finishCheck (caseTickAfter inp s) (caseStatusAfter inp s)
      else s.finished := by
  by_cases h : CASE_POLL_INTERVAL ≤ inp.now - s.last_case_poll <;>
    simp [update_state, h]

/-- C3.  At a due case poll in the Polling state (finished = false), the
controller transitions to Finished exactly when the retained tick reaches
`TICK_LIMIT` or the retained status, lowercased, is neither "active" nor
"running"; with limit 1800, tick 1800 always finishes and tick 1799 with an
active or running status does not. -/
theorem lifecycle_finish_transition (tk : String) (ct : Int) (inp : UpdateInput)
    (s : AppState) (hpoll : s.finished = false)
    (hdue : CASE_POLL_INTERVAL ≤ inp.now - s.last_case_poll) :
    ((update_state tk ct inp s).1.finished = true ↔
      (TICK_LIMIT ≤ caseTickAfter inp s
        ∨ (strLower (caseStatusAfter inp s) ≠ "active"
            ∧ strLower (caseStatusAfter inp s) ≠ "running")))
    ∧ (∀ st : String, finishCheck 1800 st = true)
    ∧ finishCheck 1799 "active" = false
    ∧ finishCheck 1799 "Running" = false := by
  refine ⟨?_, ?_, by decide, by decide⟩
  · rw [update_state_finished_eq, if_pos (by simpa using hdue), hpoll]
    simp [finishCheck, not_or]
  · intro st
    simp [finishCheck, TICK_LIMIT]

/-- Witness for C3: at tick 1800 (the limit) the controller finishes. -/
theorem lifecycle_finish_transition_witness :
    (initial_state.finished = false
      ∧ CASE_POLL_INTERVAL ≤ (1 : ℚ) - initial_state.last_case_poll)
    ∧ (update_state "CRZY" 10 ⟨1, some (1800, "ACTIVE"), none, none⟩
        initial_state).1.finished = true := by
  have hdue : CASE_POLL_INTERVAL ≤ (1 : ℚ) - initial_state.last_case_poll := by
    norm_num [CASE_POLL_INTERVAL, initial_state, Rat.mkRat_eq_div]
  refine ⟨⟨rfl, hdue⟩, ?_⟩
  exact (lifecycle_finish_transition "CRZY" 10 ⟨1, some (1800, "ACTIVE"), none, none⟩
      initial_state rfl hdue).1.mpr (Or.inl (by decide))

/-- C6.  The finished flag is sticky: from any state with finished = true,
every update call leaves it true. -/
theorem finished_sticky (tk : String) (ct : Int) (inp : UpdateInput)
    (s : AppState) (h : s.finished = true) :
    (update_state tk ct inp s).1.finished = true := by
  rw [update_state_finished_eq, h]
  simp

/-- Witness for C6: a concrete finished state stays finished. -/
theorem finished_sticky_witness :
    ({ initial_state with finished := true } : AppState).finished = true
    ∧ (update_state "CRZY" 10 ⟨1, none, none, none⟩
        { initial_state with finished := true }).1.finished = true :=
  ⟨rfl, finished_sticky "CRZY" 10 ⟨1, none, none, none⟩ _ rfl⟩

/-- Lookup after insert: the inserted key maps to the new value, and every
other key is untouched. -/
theorem alistLookup_insert {α β : Type} [DecidableEq α] (l : List (α × β))
    (k k' : α) (v : β) :
    alistLookup (alistInsert l k v) k' =
      if k' = k then some v else alistLookup l k' := by
  induction l with
  | nil => simp [alistInsert, alistLookup]
  | cons a rest ih =>
      obtain ⟨ka, va⟩ := a
      by_cases hka : k = ka
      · subst hka
        by_cases hk' : k' = k <;> simp [alistInsert, alistLookup, hk']
      · by_cases hk'a : k' = ka
        · subst hk'a
          have hk'k : ¬ k' = k := fun he => hka he.symm
          simp [alistInsert, alistLookup, hka, hk'k]
        · simp [alistInsert, alistLookup, hka, hk'a, ih]

/-! ### Claim C4 (corrected): polling after Finished -/

/-- Counterexample to C4 as stated: in a finished state with the case-poll
interval elapsed, the very next update call still performs a case-status
poll (the case block of app_v2.py line 239 is not gated on `finished`). -/
theorem finished_polling_gates_cex :
    ({ initial_state with finished := true } : AppState).finished = true
    ∧ (update_state "CRZY" 10 ⟨1, some (10, "ACTIVE"), some (NewsData.arr []), some []⟩
        { initial_state with finished := true }).2.didCasePoll = true := by
  refine ⟨rfl, ?_⟩
  show decide (CASE_POLL_INTERVAL ≤ (1 : ℚ) - (0 : ℚ)) = true
  rw [decide_eq_true_eq]
  norm_num [CASE_POLL_INTERVAL, Rat.mkRat_eq_div]

/-- C4 amended.  Once finished, news polling never happens again; a history
poll happens only while the cached candle list for the requested key is
still empty (so it stops as soon as a poll yields candles, but repeats while
polls fail or return no rows); case polling is not gated on finished at all
and keeps firing on its cadence. -/
theorem finished_polling_gates (tk : String) (ct : Int) (inp : UpdateInput)
    (s : AppState) (h : s.finished = true) :
    (update_state tk ct inp s).2.didNewsPoll = false
    ∧ ((update_state tk ct inp s).2.didHistPoll = true →
        ∀ e : HistEntry, alistLookup s.history_cache (tk, ct) = some e →
          e.candles = [])
    ∧ (update_state tk ct inp s).2.didCasePoll
        = decide (CASE_POLL_INTERVAL ≤ inp.now - s.last_case_poll) := by
  refine ⟨?_, ?_, rfl⟩
  · simp [update_state, h]
  · intro hflag e he
    revert hflag
    simp only [update_state, h, he, Option.getD_some]
    simp only [List.isEmpty_iff, Bool.true_or, ite_self, Bool.true_and,
      Bool.and_eq_true, Bool.not_eq_true', decide_eq_true_eq]
    intro hemp
    have := hemp.2
    simp [List.isEmpty_iff] at this
    exact this

/-- Witness for C4 amended: concrete finished state with an empty cache. -/
theorem finished_polling_gates_witness :
    ({ initial_state with finished := true } : AppState).finished = true
    ∧ (update_state "CRZY" 10 ⟨1, none, none, none⟩
        { initial_state with finished := true }).2.didNewsPoll = false :=
  ⟨rfl, (finished_polling_gates "CRZY" 10 ⟨1, none, none, none⟩ _ rfl).1⟩

/-! ### Claim C5 (corrected): feed exceptions -/

/-- Counterexample to C5 as stated: the very first case poll failing, while
the stored status is still the initial "unknown", makes the controller
finished (app_v2.py line 248 runs on the retained values, and "unknown" is
not in ("active", "running")). -/
theorem feed_exception_cex :
    (⟨1, none, none, none⟩ : UpdateInput).caseRes = none
    ∧ initial_state.status = "unknown"
    ∧ initial_state.finished = false
    ∧ (update_state "CRZY" 10 ⟨1, none, none, none⟩ initial_state).1.finished
        = true := by
  refine ⟨rfl, rfl, rfl, ?_⟩
  rw [update_state_finished_eq]
  rw [if_pos (by norm_num [CASE_POLL_INTERVAL, initial_state, Rat.mkRat_eq_div])]
  decide

/-- C5 amended.  A feed exception leaves that feed's cached value unmodified
(case exception: tick, status and last_case_poll unchanged; news exception:
both headlines unchanged; history exception: every existing cache entry
unchanged).  However, a case-poll exception does not suppress the finished
check, which still runs on the retained tick/status whenever the poll was
due, so an exception does lead to Finished exactly when the retained values
already meet the finish condition — in particular when the very first case
poll fails while status is still the initial "unknown". -/
theorem feed_exception_preserves_state (tk : String) (ct : Int)
    (inp : UpdateInput) (s : AppState) :
    (inp.caseRes = none →
        (update_state tk ct inp s).1.tick = s.tick
        ∧ (update_state tk ct inp s).1.status = s.status
        ∧ (update_state tk ct inp s).1.last_case_poll = s.last_case_poll)
    ∧ (inp.newsData = none →
        (update_state tk ct inp s).1.current_news = s.current_news
        ∧ (update_state tk ct inp s).1.previous_news = s.previous_news)
    ∧ (inp.histData = none →
        ∀ k : String × Int, ∀ e : HistEntry,
          alistLookup s.history_cache k = some e →
          alistLookup (update_state tk ct inp s).1.history_cache k = some e)
    ∧ (inp.caseRes = none →
        (update_state tk ct inp s).1.finished =
          if decide (CASE_POLL_INTERVAL ≤ inp.now - s.last_case_poll) then
            s.finished || finishCheck s.tick s.status
          else s.finished) := by
  refine ⟨?_, ?_, ?_, ?_⟩
  · intro hc
    refine ⟨?_, ?_, ?_⟩ <;> simp [update_state, caseTickAfter, caseStatusAfter, hc]
  · intro hn
    constructor <;> simp [update_state, hn, get_news_headlines]
  · intro hh k e he
    simp only [update_state, hh]
    cases hkey : alistLookup s.history_cache (tk, ct) with
    | some e' => simpa using he
    | none =>
        have hne : ¬ k = (tk, ct) := by
          intro hk
          rw [hk, hkey] at he
          exact Option.noConfusion he
        simpa [alistLookup_insert, hne] using he
  · intro hc
    rw [update_state_finished_eq]
    simp [caseTickAfter, caseStatusAfter, hc]

/-- Witness for C5 amended: all three feeds failing on the initial state
leave tick, status and headlines at their initial values. -/
theorem feed_exception_preserves_state_witness :
    (⟨1, none, none, none⟩ : UpdateInput).caseRes = none
    ∧ (update_state "CRZY" 10 ⟨1, none, none, none⟩ initial_state).1.tick
        = initial_state.tick
    ∧ (update_state "CRZY" 10 ⟨1, none, none, none⟩ initial_state).1.current_news
        = initial_state.current_news :=
  ⟨rfl,
   ((feed_exception_preserves_state "CRZY" 10 ⟨1, none, none, none⟩
      initial_state).1 rfl).1,
   ((feed_exception_preserves_state "CRZY" 10 ⟨1, none, none, none⟩
      initial_state).2.1 rfl).1⟩

/-! ### Claim C8: failed news polls -/

/-- C8.  When the news fetch fails, `get_news_headlines` returns
`(None, None)` and the stored current and previous headlines after the
update call are identical to their values before it. -/
theorem news_failure_preserves_headlines (tk : String) (ct : Int)
    (inp : UpdateInput) (s : AppState) (h : inp.newsData = none) :
    get_news_headlines inp.newsData = (none, none)
    ∧ (update_state tk ct inp s).1.current_news = s.current_news
    ∧ (update_state tk ct inp s).1.previous_news = s.previous_news := by
  refine ⟨by rw [h]; rfl, ?_, ?_⟩ <;> simp [update_state, h, get_news_headlines]

/-- Witness for C8: a failed news fetch on a state with non-empty headlines
leaves them byte-identical. -/
theorem news_failure_preserves_headlines_witness :
    (⟨1, some (5, "ACTIVE"), none, none⟩ : UpdateInput).newsData = none
    ∧ (update_state "CRZY" 10 ⟨1, some (5, "ACTIVE"), none, none⟩
        { initial_state with current_news := "breaking", previous_news := "old" }).1.current_news
        = "breaking"
    ∧ (update_state "CRZY" 10 ⟨1, some (5, "ACTIVE"), none, none⟩
        { initial_state with current_news := "breaking", previous_news := "old" }).1.previous_news
        = "old" := by
  have h := news_failure_preserves_headlines "CRZY" 10 ⟨1, some (5, "ACTIVE"), none, none⟩
    { initial_state with current_news := "breaking", previous_news := "old" } rfl
  exact ⟨rfl, h.2.1, h.2.2⟩

/-! ### Claim C9: history-row normalization -/

/-- A row the parser skips never disturbs the rest of the batch. -/
theorem normalize_append_skip (xs ys : List (Option RawRow))
    (item : Option RawRow) (hskip : parseHistRow item = none) :
    normalize_history_rows (xs ++ item :: ys)
      = normalize_history_rows xs ++ normalize_history_rows ys := by
  induction xs with
  | nil => simp [normalize_history_rows, hskip]
  | cons x xs ih =>
      cases hx : parseHistRow x <;>
        simp [normalize_history_rows, hx, ih]

/-- C9.  Normalization probes position aliases in the priority order tick,
timestamp, time (falling to the next alias only when the earlier key is
absent or null) and price aliases in the order close, last, price (by dict
`get` fallback on absent keys); a non-dict row, or a row whose probed
position or price candidate does not parse as a number, is skipped while the
rest of the batch is still processed. -/
theorem history_row_normalization (xs ys : List (Option RawRow))
    (item : Option RawRow) (hskip : parseHistRow item = none) :
    normalize_history_rows (xs ++ item :: ys)
        = normalize_history_rows xs ++ normalize_history_rows ys
    ∧ parseHistRow (none : Option RawRow) = none
    ∧ (∀ row : RawRow, ∀ v : RawVal, row.tick = some v → v ≠ RawVal.vnull →
        rowPosVal row = v)
    ∧ (∀ row : RawRow, row.tick = none ∨ row.tick = some RawVal.vnull →
        rowPosVal row = pyGet row.timestamp (pyGet row.time RawVal.vnull))
    ∧ (∀ row : RawRow, ∀ v : RawVal, row.close = some v → rowPriceVal row = v)
    ∧ (∀ row : RawRow, row.close = none →
        rowPriceVal row = pyGet row.last (pyGet row.price RawVal.vnull))
    ∧ (∀ row : RawRow, pyIntOf (rowPosVal row) = none →
        parseHistRow (some row) = none)
    ∧ (∀ row : RawRow, hasOHLC row = false →
        pyFloatOf (rowPriceVal row) = none → parseHistRow (some row) = none) := by
  refine ⟨normalize_append_skip xs ys item hskip, rfl, ?_, ?_, ?_, ?_, ?_, ?_⟩
  · intro row v ht hv
    simp [rowPosVal, pyGet, ht, hv]
  · intro row ht
    rcases ht with ht | ht <;> simp [rowPosVal, pyGet, ht]
  · intro row v hc
    simp [rowPriceVal, pyGet, hc]
  · intro row hc
    simp [rowPriceVal, pyGet, hc]
  · intro row hpos
    simp [parseHistRow, hpos]
  · intro row hohlc hfl
    cases hpos : pyIntOf (rowPosVal row) with
    | none => simp [parseHistRow, hpos]
    | some t =>
        by_cases hp : rowPriceVal row = RawVal.vnull <;>
          simp [parseHistRow, hpos, hohlc, hp, hfl]

/-- A well-formed scalar raw row at tick 1 with price 10. -/
def rowGoodA : RawRow := { tick := some (RawVal.vint 1), price := some (RawVal.vint 10) }

/-- A well-formed scalar raw row at tick 2 with price 11. -/
def rowGoodB : RawRow := { tick := some (RawVal.vint 2), price := some (RawVal.vint 11) }

/-- A malformed raw row: its tick value is a non-numeric string. -/
def rowBadTick : RawRow := { tick := some (RawVal.vstr "abc"), price := some (RawVal.vint 7) }

/-- Witness for C9: a row whose tick field is a non-numeric string is
skipped between two good scalar rows, which both survive. -/
theorem history_row_normalization_witness :
    parseHistRow (some rowBadTick) = none
    ∧ normalize_history_rows ([some rowGoodA] ++ (some rowBadTick) :: [some rowGoodB])
        = normalize_history_rows [some rowGoodA]
          ++ normalize_history_rows [some rowGoodB] :=
  ⟨by decide, (history_row_normalization _ _ _ (by decide)).1⟩

/-! ### Claim C10: the candle query parameter -/

/-- C10.  The candle width actually used for bucketing is always an integer
at least 1: missing and unparsable values fall back to the default 10, and a
parsed value is clamped up from below by 1 (so zero and negatives become 1);
`tick // candle_ticks` therefore never divides by zero. -/
theorem chart_candle_param_safe :
    (∀ raw : Option String, 1 ≤ chart_png_candle_ticks raw)
    ∧ chart_png_candle_ticks none = 10
    ∧ chart_png_candle_ticks (some "") = 10
    ∧ chart_png_candle_ticks (some "0") = 1
    ∧ chart_png_candle_ticks (some "-5") = 1
    ∧ chart_png_candle_ticks (some "abc") = 10
    ∧ chart_png_candle_ticks (some "2.5") = 10
    ∧ chart_png_candle_ticks (some " 25 ") = 25 := by
  refine ⟨?_, by decide, by decide, by decide, by decide, by decide, by decide,
    by decide⟩
  intro raw
  simp only [chart_png_candle_ticks]
  split
  · exact le_max_left 1 DEFAULT_CANDLE_TICKS
  · split
    · exact le_max_left 1 _
    · decide

end Charting
